import Mathlib

/-!
Verification development for the Go implementation of the Knight language
(knight-lang/go).  The definitions below are shallow embeddings of the Go
source: Go strings are byte lists, Go int64 arithmetic is Int with explicit
wrapping, fallible operations return Except, and the tree-walking evaluator
is embedded as a fuel-indexed step function over an explicit state record.
-/

namespace KnightGo

/-- A Go string: a sequence of bytes.  Go string indexing, slicing and len
    all operate on bytes (knight/string.go stores Knight strings as Go
    strings). -/
abbrev GoStr := List Nat

/-- Minimum value of the Go int64 type, the payload of knight/integer.go
    `type Integer int64`. -/
def intMin64 : Int := -(2 ^ 63)

/-- Maximum value of the Go int64 type. -/
def intMax64 : Int := 2 ^ 63 - 1

/-- Whether an integer is representable as a Go int64. -/
def isInt64 (n : Int) : Prop := intMin64 ≤ n ∧ n ≤ intMax64

instance (n : Int) : Decidable (isInt64 n) := by
  unfold isInt64; infer_instance

/-- Two's-complement wrap-around into the int64 range, the semantics of
    overflowing Go int64 arithmetic. -/
def wrap64 (n : Int) : Int := (n + 2 ^ 63) % 2 ^ 64 - 2 ^ 63

/-- Go rune-to-UTF-8 conversion, mirroring `string(r)` and
    utf8.AppendRune: code points above U+10FFFF and surrogate halves are
    replaced by U+FFFD.  A rune is modelled as its code point. -/
def utf8EncodeRune (r : Nat) : List Nat :=
  if r < 0x80 then [r]
  else if r < 0x800 then
    [0xC0 + r / 64, 0x80 + r % 64]
  else if 0xD800 ≤ r ∧ r ≤ 0xDFFF then
    [0xEF, 0xBF, 0xBD]
  else if r < 0x10000 then
    [0xE0 + r / 4096, 0x80 + (r / 64) % 64, 0x80 + r % 64]
  else if r ≤ 0x10FFFF then
    [0xF0 + r / 262144, 0x80 + (r / 4096) % 64, 0x80 + (r / 64) % 64, 0x80 + r % 64]
  else
    [0xEF, 0xBF, 0xBD]

/-- Whether a byte is a UTF-8 continuation byte in the range 0x80..0xBF. -/
def isCont (b : Nat) : Bool := 0x80 ≤ b && b ≤ 0xBF

/-- Core of the UTF-8 decoder.  The extra Nat argument only bounds the
    recursion depth so that the definition is structurally recursive (and
    hence computes by kernel reduction); since at least one byte is
    consumed per step, any bound at or above the byte count is exact. -/
def utf8DecodeAux : Nat → GoStr → List Nat
  | 0, _ => []
  | _ + 1, [] => []
  | fuel + 1, b0 :: rest =>
    if b0 < 0x80 then b0 :: utf8DecodeAux fuel rest
    else if 0xC2 ≤ b0 ∧ b0 ≤ 0xDF then
      match rest with
      | b1 :: rest2 =>
        if isCont b1 then ((b0 - 0xC0) * 64 + (b1 - 0x80)) :: utf8DecodeAux fuel rest2
        else 0xFFFD :: utf8DecodeAux fuel rest
      | [] => 0xFFFD :: utf8DecodeAux fuel rest
    else if 0xE0 ≤ b0 ∧ b0 ≤ 0xEF then
      match rest with
      | b1 :: b2 :: rest3 =>
        if (if b0 = 0xE0 then 0xA0 ≤ b1 && b1 ≤ 0xBF
            else if b0 = 0xED then 0x80 ≤ b1 && b1 ≤ 0x9F
            else isCont b1) && isCont b2 then
          ((b0 - 0xE0) * 4096 + (b1 - 0x80) * 64 + (b2 - 0x80)) :: utf8DecodeAux fuel rest3
        else 0xFFFD :: utf8DecodeAux fuel rest
      | _ => 0xFFFD :: utf8DecodeAux fuel rest
    else if 0xF0 ≤ b0 ∧ b0 ≤ 0xF4 then
      match rest with
      | b1 :: b2 :: b3 :: rest4 =>
        if (if b0 = 0xF0 then 0x90 ≤ b1 && b1 ≤ 0xBF
            else if b0 = 0xF4 then 0x80 ≤ b1 && b1 ≤ 0x8F
            else isCont b1) && isCont b2 && isCont b3 then
          ((b0 - 0xF0) * 262144 + (b1 - 0x80) * 4096 + (b2 - 0x80) * 64 + (b3 - 0x80))
            :: utf8DecodeAux fuel rest4
        else 0xFFFD :: utf8DecodeAux fuel rest
      | _ => 0xFFFD :: utf8DecodeAux fuel rest
    else 0xFFFD :: utf8DecodeAux fuel rest

/-- Decode a Go string into its sequence of runes, following
    utf8.DecodeRuneInString: every invalid byte sequence contributes one
    U+FFFD rune and consumes a single byte.  This is the decoding used by
    `range` over a string, `TrimLeftFunc` and `RuneCountInString`. -/
def utf8DecodeStr (s : GoStr) : List Nat := utf8DecodeAux s.length s

/-- The number of runes in a Go string, utf8.RuneCountInString. -/
def runeCountInString (s : GoStr) : Nat := (utf8DecodeStr s).length

/-- Encode a Lean string as the corresponding Go string (UTF-8 bytes);
    used only to write concrete test inputs readably. -/
def goStrOf (s : String) : GoStr :=
  (s.data.map fun c => utf8EncodeRune c.toNat).flatten

/-- unicode.IsSpace on a rune: the Latin-1 white space characters plus the
    Unicode White_Space code points. -/
def goIsSpace (r : Nat) : Bool :=
  (9 ≤ r && r ≤ 13) || r = 32 || r = 0x85 || r = 0xA0 || r = 0x1680 ||
  (0x2000 ≤ r && r ≤ 0x200A) || r = 0x2028 || r = 0x2029 || r = 0x202F ||
  r = 0x205F || r = 0x3000

/-- Whether a rune is an ASCII decimal digit (the digit set fmt scanning
    uses for the %d verb). -/
def isDigitRune (r : Nat) : Bool := 48 ≤ r && r ≤ 57

/-! ## Integer coercions (knight/integer.go) -/

/-- The 2.0.1 compatibility toggle; the repository sets it to true. -/
def shouldSupportKnightVersion_2_0_1 : Bool := true

/-- The digit-peeling loop of Integer.ToList: while i is nonzero, prepend
    i % 10 (Go % and / truncate toward zero, Int.tmod and Int.tdiv here)
    and divide i by 10.  The extra Nat argument only bounds the recursion
    depth so the definition is structurally recursive; any bound at or
    above the number of loop iterations is exact. -/
def intToListLoop : Nat → Int → List Int → List Int
  | 0, _, acc => acc
  | fuel + 1, i, acc =>
    if i = 0 then acc else intToListLoop fuel (i.tdiv 10) (i.tmod 10 :: acc)

/-- Integer.ToList (knight/integer.go lines 46-63): the base-10 digits of
    the integer; zero maps to the one-element list holding zero, and the
    2.0.1 toggle disables the error for negative inputs. -/
def intToList (i : Int) : Except String (List Int) :=
  if i = 0 then .ok [i]
  else if i < 0 ∧ shouldSupportKnightVersion_2_0_1 = false then
    .error "attempted to convert a negative integer to list"
  else .ok (intToListLoop (i.natAbs + 1) i [])

/-- Integer.ToString via strconv.FormatInt base 10: an optional minus sign
    followed by the decimal digits of the absolute value, as bytes. -/
def intToString (i : Int) : GoStr :=
  (if i < 0 then [45] else []) ++ ((Nat.repr i.natAbs).data.map Char.toNat)

/-! ## String.ToInteger (knight/string.go lines 41-51)

The Go code first deletes the leading whitespace runes with
strings.TrimLeftFunc( . , unicode.IsSpace) and then parses the remainder
with fmt.Sscanf( . , "%d", ...): an optional single + or - sign, then a
maximal run of ASCII decimal digits; if the run is empty the scan fails
and the output variable keeps its zero value, and if strconv.ParseInt
rejects the token because it overflows int64 the output likewise stays
zero.  Both steps work rune by rune over the UTF-8 bytes, so they are
modelled on the decoded rune sequence. -/

/-- The numeric value of a maximal leading ASCII digit run. -/
def digitRunValue (rs : List Nat) : Nat :=
  (rs.takeWhile isDigitRune).foldl (fun acc r => acc * 10 + (r - 48)) 0

/-- Model of fmt.Sscanf with the %d verb on a rune sequence: one optional
    sign rune, a maximal nonempty ASCII digit run, value by ParseInt with
    overflow into int64 rejected (leaving the scanned variable zero). -/
def sscanfPercentD (rs : List Nat) : Int :=
  let sign : Int := if rs.head? = some 45 then -1 else 1
  let afterSign := if rs.head? = some 45 ∨ rs.head? = some 43 then rs.tail else rs
  let run := afterSign.takeWhile isDigitRune
  if run = [] then 0
  else
    let v : Int := sign * digitRunValue afterSign
    if intMin64 ≤ v ∧ v ≤ intMax64 then v else 0

/-- String.ToInteger: trim the leading whitespace runes, then scan with
    the %d verb. -/
def stringToInteger (s : GoStr) : Int :=
  sscanfPercentD ((utf8DecodeStr s).dropWhile (fun r => goIsSpace r))

/-- The integer described by the specification for the Integer coercion of
    a String: skip leading whitespace, read an optional + or - sign and
    then the maximal run of decimal digits, and return that number, zero
    when the run is empty, ignoring all remaining characters.  Stated on
    the rune sequence of the string; the value is the exact (unbounded)
    integer the digits denote. -/
def specStringToInt (runes : List Nat) : Int :=
  let t := runes.dropWhile (fun r => goIsSpace r)
  let sign : Int := if t.head? = some 45 then -1 else 1
  let afterSign := if t.head? = some 45 ∨ t.head? = some 43 then t.tail else t
  sign * digitRunValue afterSign

/-! ## The value model (knight/value.go and the per-type files)

Knight values are an interface sum over Integer, String, Boolean, Null,
List, pointers to Variable cells and pointers to Ast call nodes.  A
Variable pointer is determined by its name (NewVariable interns cells by
name), and an Ast by its function character and argument vector, so both
are embedded by those payloads.

The runtime representation of null and list values matters, because
reflect.DeepEqual observes it: the null builtin returns the pointer
&Null while the other handlers return the plain Null value, the empty
list builtin returns the pointer &List while the other handlers return
plain List values, and DeepEqual distinguishes a nil slice from a
non-nil empty one.  The embedding therefore keeps two null forms and
tags every list value with its slice representation. -/

/-- The representation of a Go List value: a non-nil slice, the nil
    slice, or a pointer to a List (the dynamic type *List, produced only
    by the empty-list builtin, whose pointee is a non-nil empty slice). -/
inductive ListRep where
  | vals : ListRep
  | nilSlice : ListRep
  | boxed : ListRep
deriving Repr, DecidableEq

inductive Val where
  | null : Val
  | nullRef : Val
  | bool (b : Bool) : Val
  | int (n : Int) : Val
  | str (s : GoStr) : Val
  | list (elems : List Val) (rep : ListRep) : Val
  | varRef (name : String) : Val
  | ast (fn : Char) (args : List Val) : Val
deriving Repr

/-- The observable machine state: the global variable map (a name is
    present exactly when the Variable cell has been assigned), the bytes
    remaining on standard input, and the bytes written to standard
    output. -/
structure KState where
  env : List (String × Val)
  stdin : GoStr
  output : GoStr
deriving Repr

/-- Assigning a variable (Variable.Assign): later bindings shadow earlier
    ones, so lookup of the first match models the map update. -/
def envAssign (e : List (String × Val)) (name : String) (v : Val) :
    List (String × Val) :=
  (name, v) :: e

mutual
/-- Model of reflect.DeepEqual on two runtime values (the equalTo
    handler, knight/function.go lines 616-629).  Values of distinct
    dynamic types are never deeply equal, so the plain Null never equals
    the pointer form, a plain List never equals the pointer form, and a
    nil slice never equals a non-nil one; within one representation the
    comparison is structural (DeepEqual dereferences two pointers and
    compares the pointees).  Variable pointers are equal when they are
    the same interned cell and Ast nodes compare componentwise. -/
def valEq : Val → Val → Bool
  | .null, .null => true
  | .nullRef, .nullRef => true
  | .bool a, .bool b => a == b
  | .int a, .int b => a == b
  | .str a, .str b => a == b
  | .list a ra, .list b rb => ra == rb && valEqList a b
  | .varRef a, .varRef b => a == b
  | .ast f a, .ast g b => f == g && valEqList a b
  | _, _ => false

/-- Elementwise DeepEqual on value slices of equal length. -/
def valEqList : List Val → List Val → Bool
  | [], [] => true
  | x :: xs, y :: ys => valEq x y && valEqList xs ys
  | _, _ => false
end

/-! ## Pure helpers shared by the evaluator -/

/-- strings.Repeat on bytes. -/
def strRepeat (s : GoStr) (n : Nat) : GoStr := (List.replicate n s).flatten

/-- The repeated-append loop of the List branch of multiply. -/
def listRepeat (l : List Val) (n : Nat) : List Val := (List.replicate n l).flatten

/-- The divide handler on two executed integers (knight/function.go lines
    435-457): error on a zero divisor, otherwise Go int64 division, which
    truncates toward zero and wraps on the single overflowing input pair. -/
def goDivideInt (a b : Int) : Except String Int :=
  if b = 0 then .error "zero divisor given to /"
  else .ok (wrap64 (a.tdiv b))

/-- The remainder handler on two executed integers (knight/function.go
    lines 460-482): error on a zero divisor, otherwise Go int64 remainder
    (truncated division remainder). -/
def goRemainderInt (a b : Int) : Except String Int :=
  if b = 0 then .error "zero divisor given to %"
  else .ok (wrap64 (a.tmod b))

/-- The three ways a Go handler invocation can end: a returned value, a
    returned error value, or a runtime panic.  The interpreter never
    recovers from panics, so a panic crashes the process instead of
    surfacing as a Knight error; keeping the two apart in the type keeps
    that difference observable. -/
inductive GoOutcome (α : Type) where
  | ok (val : α) : GoOutcome α
  | err (msg : String) : GoOutcome α
  | panicked (msg : String) : GoOutcome α
deriving Repr

/-- The bounds check and slice of the get handler, after the collection
    and both indices have been executed and the indices found nonnegative
    (knight/function.go lines 755-774).  stop := start + length is int64
    addition, which wraps, so when start+length overflows, stop is
    negative: the len(collection) < int(stop) check then passes and the
    slice expression collection[start:stop] panics (slicing requires
    0 <= start <= stop <= len).  Go string and slice indexing is by bytes
    respectively elements, and the dynamic type *List of the boxed empty
    list does not match the List case of the type switch. -/
def goGetRange (collection : Val) (start length : Int) : GoOutcome Val :=
  let stop := wrap64 (start + length)
  match collection with
  | .str s =>
    if (s.length : Int) < stop then .err "string index out of bounds for GET"
    else if 0 ≤ start ∧ start ≤ stop then
      .ok (.str ((s.drop start.toNat).take (stop - start).toNat))
    else .panicked "slice bounds out of range"
  | .list l .boxed => .err "invalid type given to GET"
  | .list l rep =>
    if (l.length : Int) < stop then .err "list index out of bounds for GET"
    else if 0 ≤ start ∧ start ≤ stop then
      .ok (.list ((l.drop start.toNat).take (stop - start).toNat) rep)
    else .panicked "slice bounds out of range"
  | _ => .err "invalid type given to GET"

/-- The get handler on already-executed operand values (knight/function.go
    lines 733-775 with the three argument executions stripped): reject a
    negative start or length, then slice. -/
def goGet (collection : Val) (start length : Int) : GoOutcome Val :=
  if start < 0 then .err "negative start given to GET"
  else if length < 0 then .err "negative length given to GET"
  else goGetRange collection start length

/-- Go int64-to-int32 truncation, the `rune(value)` conversion in the
    ascii handler. -/
def wrap32 (n : Int) : Int := (n + 2 ^ 31) % 2 ^ 32 - 2 ^ 31

/-- utf8.ValidRune. -/
def goValidRune (r : Int) : Bool :=
  (0 ≤ r && r ≤ 0x10FFFF) && !(0xD800 ≤ r && r ≤ 0xDFFF)

/-! ## PROMPT (knight/function.go lines 102-112)

bufio.Scanner with the default ScanLines split function: a token is the
input up to (not including) the first newline, with one trailing carriage
return dropped; at end of input a nonempty remainder is a final token and
an empty remainder ends the scan.  The handler then strips every trailing
carriage return of the token with strings.TrimRight(text, CR). -/

/-- dropCR of bufio.ScanLines: remove one trailing carriage return. -/
def dropCR (l : GoStr) : GoStr :=
  if l.getLast? = some 13 then l.dropLast else l

/-- strings.TrimRight with a carriage-return cutset: remove every
    trailing carriage return. -/
def trimRightCR (l : GoStr) : GoStr :=
  (l.reverse.dropWhile (fun b => b = 13)).reverse

/-- The bytes before the first newline of the pending input. -/
def lineBreakFree (stdin : GoStr) : GoStr := stdin.takeWhile (fun b => b != 10)

/-- One bufio.Scanner.Scan step with ScanLines over the remaining stdin
    bytes: none at end of input, otherwise the token and the rest. -/
def scanLine (stdin : GoStr) : Option (GoStr × GoStr) :=
  if stdin = [] then none
  else
    let pre := lineBreakFree stdin
    if pre.length = stdin.length then some (dropCR pre, [])
    else some (dropCR pre, stdin.drop (pre.length + 1))

/-- The health of standard input as the prompt handler observes it: either
    the remaining bytes, or a read failure with the error text that
    Scanner.Err reports. -/
inductive StdinState where
  | healthy (remaining : GoStr) : StdinState
  | broken (msg : String) : StdinState

/-- The prompt handler (knight/function.go lines 102-112): on a scanned
    line return its text with every trailing carriage return stripped; if
    the scan stopped because of an input failure surface that error, and
    at plain end of input return Null. -/
def goPrompt : StdinState → Except String (Val × GoStr)
  | .broken msg => .error msg
  | .healthy stdin =>
    match scanLine stdin with
    | some (line, rest) => .ok (.str (trimRightCR line), rest)
    | none => .ok (.null, [])

/-! ## The evaluator (knight/function.go, first listing)

Value.Run, the four TryConvert coercions (each type's ToBoolean, ToInteger,
ToString and ToList methods, with Ast conversions running the node first,
per knight/ast.go) and List.Join are mutually recursive through the Ast
case, so they are embedded as one fuel-indexed step function over a
request sum.  The fuel only bounds the recursion depth: every theorem
below either quantifies over the fuel or picks one large enough for its
concrete program, and running out of fuel is a distinguished error. -/

inductive Req where
  | exe (v : Val) : Req
  | toBool (v : Val) : Req
  | toInt (v : Val) : Req
  | toStr (v : Val) : Req
  | toList (v : Val) : Req
  | joinSep (elems : List Val) (sep : GoStr) : Req

/-- Plumbing: a conversion request always answers with the matching value
    shape, and these extractors witness that at use sites. -/
def expectBool : Except String (Val × KState) → Except String (Bool × KState)
  | .ok (.bool b, σ) => .ok (b, σ)
  | .ok _ => .error "internal: expected a boolean conversion result"
  | .error e => .error e

def expectInt : Except String (Val × KState) → Except String (Int × KState)
  | .ok (.int n, σ) => .ok (n, σ)
  | .ok _ => .error "internal: expected an integer conversion result"
  | .error e => .error e

def expectStr : Except String (Val × KState) → Except String (GoStr × KState)
  | .ok (.str s, σ) => .ok (s, σ)
  | .ok _ => .error "internal: expected a string conversion result"
  | .error e => .error e

def expectList : Except String (Val × KState) → Except String (List Val × KState)
  | .ok (.list l _, σ) => .ok (l, σ)
  | .ok _ => .error "internal: expected a list conversion result"
  | .error e => .error e

/-- One evaluation engine for the whole first listing of
    knight/function.go.  Representation notes: the null and empty-list
    builtins return the pointer forms; a type switch never matches the
    boxed list (dynamic type *List), which therefore falls to the default
    branch of every handler, while the conversion methods and Run are
    promoted value-receiver methods, so converting a boxed value works
    and running it returns the dereferenced (unboxed) copy.  A GET or
    SET whose int64 stop index wraps panics in the slice expression; the
    panic aborts evaluation and is represented here as an error whose
    text starts with panic (the distinction between a returned error and
    a crash is kept precise in goGetRange, where the claim about GET is
    settled).  DUMP, RANDOM, QUIT, the float-based exponentiation and
    the two comparison handlers are outside the scope of the claims and
    evaluate to distinguished errors. -/
def run : Nat → Req → KState → Except String (Val × KState)
  | 0, _, _ => .error "recursion limit exceeded"
  | fuel + 1, req, σ =>
    match req with
    | .exe v =>
      match v with
      | .varRef name =>
        match σ.env.lookup name with
        | some value => .ok (value, σ)
        | none => .error ("undefined variable " ++ name ++ " encountered")
      | .ast f args =>
        match f, args with
        | 'T', [] => .ok (.bool true, σ)
        | 'F', [] => .ok (.bool false, σ)
        | 'N', [] => .ok (.nullRef, σ)
        | '@', [] => .ok (.list [] .boxed, σ)
        | 'P', [] =>
          match goPrompt (.healthy σ.stdin) with
          | .ok (v, rest) => .ok (v, { σ with stdin := rest })
          | .error e => .error e
        | ':', [a] => run fuel (.exe a) σ
        | 'B', [a] => .ok (a, σ)
        | 'C', [a] => do
          let (b, σ₁) ← run fuel (.exe a) σ
          run fuel (.exe b) σ₁
        | '!', [a] => do
          let (v, σ₁) ← run fuel (.exe a) σ
          let (b, σ₂) ← expectBool (run fuel (.toBool v) σ₁)
          .ok (.bool !b, σ₂)
        | 'L', [a] => do
          let (v, σ₁) ← run fuel (.exe a) σ
          match v with
          | .list l .vals => .ok (.int l.length, σ₁)
          | .list l .nilSlice => .ok (.int l.length, σ₁)
          | .str s => .ok (.int s.length, σ₁)
          | other => do
            let (l, σ₂) ← expectList (run fuel (.toList other) σ₁)
            .ok (.int l.length, σ₂)
        | 'O', [a] => do
          let (v, σ₁) ← run fuel (.exe a) σ
          let (s, σ₂) ← expectStr (run fuel (.toStr v) σ₁)
          if s ≠ [] ∧ s.getLast? = some 92 then
            .ok (.null, { σ₂ with output := σ₂.output ++ s.dropLast })
          else
            .ok (.null, { σ₂ with output := σ₂.output ++ s ++ [10] })
        | 'A', [a] => do
          let (v, σ₁) ← run fuel (.exe a) σ
          match v with
          | .int n =>
            if goValidRune (wrap32 n) then
              .ok (.str (utf8EncodeRune (wrap32 n).toNat), σ₁)
            else .error "invalid integer given to ASCII"
          | .str s =>
            match s with
            | [] => .error "empty string given to ASCII"
            | _ => .ok (.int ((utf8DecodeStr s).headD 0xFFFD), σ₁)
          | _ => .error "invalid type given to ASCII"
        | '~', [a] => do
          let (v, σ₁) ← run fuel (.exe a) σ
          let (n, σ₂) ← expectInt (run fuel (.toInt v) σ₁)
          .ok (.int (wrap64 (-n)), σ₂)
        | ',', [a] => do
          let (v, σ₁) ← run fuel (.exe a) σ
          .ok (.list [v] .vals, σ₁)
        | '[', [a] => do
          let (v, σ₁) ← run fuel (.exe a) σ
          match v with
          | .list [] .vals => .error "empty list given to head"
          | .list [] .nilSlice => .error "empty list given to head"
          | .list (x :: _) .vals => .ok (x, σ₁)
          | .str [] => .error "empty string given to head"
          | .str (b :: _) => .ok (.str (utf8EncodeRune b), σ₁)
          | _ => .error "invalid type given to head"
        | ']', [a] => do
          let (v, σ₁) ← run fuel (.exe a) σ
          match v with
          | .list [] .vals => .error "empty list given to tail"
          | .list [] .nilSlice => .error "empty list given to tail"
          | .list (_ :: xs) .vals => .ok (.list xs .vals, σ₁)
          | .str [] => .error "empty string given to tail"
          | .str (_ :: bs) => .ok (.str bs, σ₁)
          | _ => .error "invalid type given to tail"
        | '+', [a, b] => do
          let (l, σ₁) ← run fuel (.exe a) σ
          match l with
          | .int n => do
            let (rv, σ₂) ← run fuel (.exe b) σ₁
            let (m, σ₃) ← expectInt (run fuel (.toInt rv) σ₂)
            .ok (.int (wrap64 (n + m)), σ₃)
          | .str s => do
            let (rv, σ₂) ← run fuel (.exe b) σ₁
            let (t, σ₃) ← expectStr (run fuel (.toStr rv) σ₂)
            .ok (.str (s ++ t), σ₃)
          | .list xs .vals => do
            let (rv, σ₂) ← run fuel (.exe b) σ₁
            let (ys, σ₃) ← expectList (run fuel (.toList rv) σ₂)
            .ok (.list (xs ++ ys) .vals, σ₃)
          | .list xs .nilSlice => do
            let (rv, σ₂) ← run fuel (.exe b) σ₁
            let (ys, σ₃) ← expectList (run fuel (.toList rv) σ₂)
            .ok (.list (xs ++ ys) (if ys.isEmpty then .nilSlice else .vals), σ₃)
          | _ => .error "invalid type given to +"
        | '-', [a, b] => do
          let (l, σ₁) ← run fuel (.exe a) σ
          match l with
          | .int n => do
            let (rv, σ₂) ← run fuel (.exe b) σ₁
            let (m, σ₃) ← expectInt (run fuel (.toInt rv) σ₂)
            .ok (.int (wrap64 (n - m)), σ₃)
          | _ => .error "invalid type given to -"
        | '*', [a, b] => do
          let (l, σ₁) ← run fuel (.exe a) σ
          let (rv, σ₂) ← run fuel (.exe b) σ₁
          let (m, σ₃) ← expectInt (run fuel (.toInt rv) σ₂)
          match l with
          | .int n => .ok (.int (wrap64 (n * m)), σ₃)
          | .str s =>
            if m < 0 then .error "negative replication amount for a string in *"
            else .ok (.str (strRepeat s m.toNat), σ₃)
          | .list xs .vals =>
            if m < 0 then .error "negative replication amount for a list in *"
            else .ok (.list (listRepeat xs m.toNat) .vals, σ₃)
          | .list xs .nilSlice =>
            if m < 0 then .error "negative replication amount for a list in *"
            else .ok (.list (listRepeat xs m.toNat) .vals, σ₃)
          | _ => .error "invalid type given to *"
        | '/', [a, b] => do
          let (l, σ₁) ← run fuel (.exe a) σ
          match l with
          | .int n => do
            let (rv, σ₂) ← run fuel (.exe b) σ₁
            let (m, σ₃) ← expectInt (run fuel (.toInt rv) σ₂)
            match goDivideInt n m with
            | .ok q => .ok (.int q, σ₃)
            | .error e => .error e
          | _ => .error "invalid type given to /"
        | '%', [a, b] => do
          let (l, σ₁) ← run fuel (.exe a) σ
          match l with
          | .int n => do
            let (rv, σ₂) ← run fuel (.exe b) σ₁
            let (m, σ₃) ← expectInt (run fuel (.toInt rv) σ₂)
            match goRemainderInt n m with
            | .ok r => .ok (.int r, σ₃)
            | .error e => .error e
          | _ => .error "invalid type given to %"
        | '?', [a, b] => do
          let (x, σ₁) ← run fuel (.exe a) σ
          let (y, σ₂) ← run fuel (.exe b) σ₁
          .ok (.bool (valEq x y), σ₂)
        | '&', [a, b] => do
          let (l, σ₁) ← run fuel (.exe a) σ
          let (truthy, σ₂) ← expectBool (run fuel (.toBool l) σ₁)
          if truthy then run fuel (.exe b) σ₂ else .ok (l, σ₂)
        | '|', [a, b] => do
          let (l, σ₁) ← run fuel (.exe a) σ
          let (truthy, σ₂) ← expectBool (run fuel (.toBool l) σ₁)
          if truthy then .ok (l, σ₂) else run fuel (.exe b) σ₂
        | ';', [a, b] => do
          let (_, σ₁) ← run fuel (.exe a) σ
          run fuel (.exe b) σ₁
        | '=', [a, b] =>
          match a with
          | .varRef name => do
            let (v, σ₁) ← run fuel (.exe b) σ
            .ok (v, { σ₁ with env := envAssign σ₁.env name v })
          | _ => .error "invalid type given to ="
        | 'W', [a, b] => do
          let (v, σ₁) ← run fuel (.exe a) σ
          let (cond, σ₂) ← expectBool (run fuel (.toBool v) σ₁)
          if cond then do
            let (_, σ₃) ← run fuel (.exe b) σ₂
            run fuel (.exe (.ast 'W' [a, b])) σ₃
          else .ok (.null, σ₂)
        | 'I', [a, b, c] => do
          let (v, σ₁) ← run fuel (.exe a) σ
          let (cond, σ₂) ← expectBool (run fuel (.toBool v) σ₁)
          if cond then run fuel (.exe b) σ₂ else run fuel (.exe c) σ₂
        | 'G', [a, b, c] => do
          let (coll, σ₁) ← run fuel (.exe a) σ
          let (bv, σ₂) ← run fuel (.exe b) σ₁
          let (start, σ₃) ← expectInt (run fuel (.toInt bv) σ₂)
          if start < 0 then .error "negative start given to GET"
          else do
            let (cv, σ₄) ← run fuel (.exe c) σ₃
            let (length, σ₅) ← expectInt (run fuel (.toInt cv) σ₄)
            if length < 0 then .error "negative length given to GET"
            else
              match goGetRange coll start length with
              | .ok r => .ok (r, σ₅)
              | .err e => .error e
              | .panicked m => .error ("panic: " ++ m)
        | 'S', [a, b, c, d] => do
          let (coll, σ₁) ← run fuel (.exe a) σ
          let (bv, σ₂) ← run fuel (.exe b) σ₁
          let (start, σ₃) ← expectInt (run fuel (.toInt bv) σ₂)
          if start < 0 then .error "negative start given to SET"
          else do
            let (cv, σ₄) ← run fuel (.exe c) σ₃
            let (length, σ₅) ← expectInt (run fuel (.toInt cv) σ₄)
            if length < 0 then .error "negative length given to SET"
            else
              let stop := wrap64 (start + length)
              match coll with
              | .str s =>
                if (s.length : Int) < stop then
                  .error "string index out of bounds for SET"
                else do
                  let (dv, σ₆) ← run fuel (.exe d) σ₅
                  let (rep, σ₇) ← expectStr (run fuel (.toStr dv) σ₆)
                  if start ≤ (s.length : Int) ∧ 0 ≤ stop then
                    .ok (.str (s.take start.toNat ++ rep ++ s.drop stop.toNat), σ₇)
                  else .error "panic: slice bounds out of range"
              | .list l .boxed => .error "invalid type given to SET"
              | .list l lrep =>
                if (l.length : Int) < stop then
                  .error "list index out of bounds for SET"
                else do
                  let (dv, σ₆) ← run fuel (.exe d) σ₅
                  let (rep, σ₇) ← expectList (run fuel (.toList dv) σ₆)
                  if start ≤ (l.length : Int) ∧ 0 ≤ stop then
                    let spliced := l.take start.toNat ++ rep ++ l.drop stop.toNat
                    .ok (.list spliced (if spliced.isEmpty then .nilSlice else .vals), σ₇)
                  else .error "panic: slice bounds out of range"
              | _ => .error "invalid type given to SET"
        | 'D', [_] => .error "DUMP is not modelled"
        | 'R', [] => .error "RANDOM is not modelled"
        | 'Q', [_] => .error "QUIT is not modelled"
        | '^', [_, _] => .error "exponentiation is not modelled"
        | '<', [_, _] => .error "the comparison handlers are not modelled"
        | '>', [_, _] => .error "the comparison handlers are not modelled"
        | _, _ => .error "unknown function or arity mismatch"
      | .nullRef => .ok (.null, σ)
      | .list es .boxed => .ok (.list es .vals, σ)
      | lit => .ok (lit, σ)
    | .toBool v =>
      match v with
      | .null => .ok (.bool false, σ)
      | .nullRef => .ok (.bool false, σ)
      | .bool b => .ok (.bool b, σ)
      | .int n => .ok (.bool (n != 0), σ)
      | .str s => .ok (.bool (s != []), σ)
      | .list l _ => .ok (.bool (!l.isEmpty), σ)
      | .varRef _ => .error "Variable does not define boolean conversions"
      | .ast f args => do
        let (r, σ₁) ← run fuel (.exe (.ast f args)) σ
        run fuel (.toBool r) σ₁
    | .toInt v =>
      match v with
      | .null => .ok (.int 0, σ)
      | .nullRef => .ok (.int 0, σ)
      | .bool b => .ok (.int (if b then 1 else 0), σ)
      | .int n => .ok (.int n, σ)
      | .str s => .ok (.int (stringToInteger s), σ)
      | .list l _ => .ok (.int l.length, σ)
      | .varRef _ => .error "Variable does not define integer conversions"
      | .ast f args => do
        let (r, σ₁) ← run fuel (.exe (.ast f args)) σ
        run fuel (.toInt r) σ₁
    | .toStr v =>
      match v with
      | .null => .ok (.str [], σ)
      | .nullRef => .ok (.str [], σ)
      | .bool b => .ok (.str (if b then goStrOf "true" else goStrOf "false"), σ)
      | .int n => .ok (.str (intToString n), σ)
      | .str s => .ok (.str s, σ)
      | .list l _ => run fuel (.joinSep l [10]) σ
      | .varRef _ => .error "Variable does not define string conversions"
      | .ast f args => do
        let (r, σ₁) ← run fuel (.exe (.ast f args)) σ
        run fuel (.toStr r) σ₁
    | .toList v =>
      match v with
      | .null => .ok (.list [] .nilSlice, σ)
      | .nullRef => .ok (.list [] .nilSlice, σ)
      | .bool b =>
        .ok (if b then .list [.bool true] .vals else .list [] .nilSlice, σ)
      | .int n =>
        match intToList n with
        | .ok ds => .ok (.list (ds.map Val.int) .vals, σ)
        | .error e => .error e
      | .str s =>
        .ok (.list ((utf8DecodeStr s).map (fun r => Val.str (utf8EncodeRune r))) .vals, σ)
      | .list l .boxed => .ok (.list l .vals, σ)
      | .list l rep => .ok (.list l rep, σ)
      | .varRef _ => .error "Variable does not define list conversions"
      | .ast f args => do
        let (r, σ₁) ← run fuel (.exe (.ast f args)) σ
        run fuel (.toList r) σ₁
    | .joinSep elems sep =>
      match elems with
      | [] => .ok (.str [], σ)
      | e :: rest => do
        let (s₁, σ₁) ← expectStr (run fuel (.toStr e) σ)
        let (s₂, σ₂) ← expectStr (run fuel (.joinSep rest sep) σ₁)
        .ok (.str (s₁ ++ (if rest.isEmpty then [] else sep) ++ s₂), σ₂)

/-- Value.Run of a value: the entry point the handlers use. -/
def exec (fuel : Nat) (v : Val) (σ : KState) : Except String (Val × KState) :=
  run fuel (.exe v) σ

/-! ## Go slice semantics for Knight lists

The Val-level evaluator above treats Knight lists as immutable values,
but the Go code stores them as slices ([]Value), and the Go specification
fixes the parts of slice behaviour the handlers rely on: a composite
literal or make allocates a fresh backing array (make with an explicit
capacity allocates exactly that capacity, zero valued), slicing a[lo:hi]
shares the backing array with offset lo, length hi-lo and capacity
cap(a)-lo, and append reuses the backing array whenever the spare
capacity suffices, writing the appended elements in place after the
current length.  This refinement model makes those backing arrays
explicit so that aliasing between the results of the list handlers is
observable.  Element values are immaterial to the aliasing behaviour, so
list elements are modelled as integers. -/

/-- A Go slice header over an integer backing array. -/
structure GoSlice where
  arr : Nat
  off : Nat
  len : Nat
  cap : Nat
deriving Repr

/-- The backing-array heap: array number i holds exactly cap(i) cells. -/
abbrev SliceHeap := List (List Int)

/-- The elements a slice presents. -/
def view (h : SliceHeap) (s : GoSlice) : List Int :=
  ((h.getD s.arr []).drop s.off).take s.len

/-- Allocate a fresh backing array holding exactly the given contents
    (a Go composite literal such as the List made by the box handler). -/
def sliceAlloc (h : SliceHeap) (contents : List Int) : SliceHeap × GoSlice :=
  (h ++ [contents], ⟨h.length, 0, contents.length, contents.length⟩)

/-- make with length zero and an explicit capacity: a fresh zero-valued
    backing array of exactly that capacity. -/
def sliceMake (h : SliceHeap) (capacity : Nat) : SliceHeap × GoSlice :=
  (h ++ [List.replicate capacity 0], ⟨h.length, 0, 0, capacity⟩)

/-- Overwrite the cells of one backing array starting at a position. -/
def heapWrite (h : SliceHeap) (arrIdx pos : Nat) (xs : List Int) : SliceHeap :=
  h.mapIdx fun i a =>
    if i = arrIdx then a.take pos ++ xs ++ a.drop (pos + xs.length) else a

/-- Go append: when the appended elements fit in the spare capacity the
    backing array is reused and written in place; otherwise a fresh array
    is allocated (the grown capacity is implementation defined; the
    claims below only exercise the reuse branch, so the fresh array is
    given the exact needed capacity). -/
def goAppend (h : SliceHeap) (s : GoSlice) (xs : List Int) :
    SliceHeap × GoSlice :=
  if s.len + xs.length ≤ s.cap then
    (heapWrite h s.arr (s.off + s.len) xs, ⟨s.arr, s.off, s.len + xs.length, s.cap⟩)
  else
    sliceAlloc h (view h s ++ xs)

/-- The slice expression collection[lo:hi] of the get handler
    (knight/function.go line 770): shares the backing array. -/
def goSliceExpr (s : GoSlice) (lo hi : Nat) : GoSlice :=
  ⟨s.arr, s.off + lo, hi - lo, s.cap - lo⟩

/-- The append loop of the List branch of multiply (knight/function.go
    lines 422-425). -/
def goAppendLoop : Nat → SliceHeap → GoSlice → GoSlice → SliceHeap × GoSlice
  | 0, h, _, dst => (h, dst)
  | k + 1, h, src, dst =>
    let (h₁, dst₁) := goAppend h dst (view h src)
    goAppendLoop k h₁ src dst₁

/-- The List branch of multiply: make a zero-length slice with capacity
    len(lhs)*n and append the left operand n times. -/
def goMultiplyList (h : SliceHeap) (src : GoSlice) (n : Nat) :
    SliceHeap × GoSlice :=
  let (h₁, dst) := sliceMake h (src.len * n)
  goAppendLoop n h₁ src dst

/-- The List branch of the add handler (knight/function.go line 365):
    append(lhs, rhs...). -/
def goAddList (h : SliceHeap) (lhs : GoSlice) (rhs : List Int) :
    SliceHeap × GoSlice :=
  goAppend h lhs rhs

/-! ## Specification-side definitions

The definitions in this section state what the specification claims and
are deliberately written from the words of the spec, to be compared with
the source embeddings above. -/

/-- Spec: the substring of a string consisting of the given number of
    runes beginning at the given rune index. -/
def specRuneSubstring (s : GoStr) (start length : Nat) : GoStr :=
  ((((utf8DecodeStr s).drop start).take length).map utf8EncodeRune).flatten

/-- Spec: the line PROMPT should produce from pending input per the
    claim: the text before the first newline with exactly one trailing
    carriage return (the one immediately before the newline) stripped. -/
def specPromptLineOneCR (stdin : GoStr) : GoStr :=
  let pre := stdin.takeWhile (fun b => b != 10)
  if pre.getLast? = some 13 then pre.dropLast else pre

/-- Spec: the base-10 digit list of an integer, zero giving the
    one-element zero list and the sign propagating into every digit. -/
def specDigitList (n : Int) : List Int :=
  if n = 0 then [0]
  else ((Nat.digits 10 n.natAbs).reverse).map fun (d : Nat) => (d : Int) * n.sign

/-- Spec: the quotient truncated toward zero. -/
def specTruncQuot (a b : Int) : Int := a.sign * b.sign * (a.natAbs / b.natAbs : Nat)

/-- Spec: the remainder whose sign follows the dividend. -/
def specTruncRem (a b : Int) : Int := a.sign * (a.natAbs % b.natAbs : Nat)

/-- Spec: literal runtime values, the five spec-mandated kinds (lists of
    literal elements, in any runtime representation); Variable and Call
    placeholders are excluded. -/
inductive Lit : Val → Prop where
  | null : Lit .null
  | nullRef : Lit .nullRef
  | bool (b : Bool) : Lit (.bool b)
  | int (n : Int) : Lit (.int n)
  | str (s : GoStr) : Lit (.str s)
  | list (elems : List Val) (rep : ListRep) (h : ∀ v ∈ elems, Lit v) :
      Lit (.list elems rep)

/-- Spec: structural equality of two values, the relation the claim says
    the equality operator decides: same kind and componentwise equal,
    Integer and Boolean by value, String by content, List by length and
    elementwise equality, never coercing.  The kind ignores the runtime
    representation: both null forms are the Null kind and every list
    representation is the List kind. -/
inductive SpecEqual : Val → Val → Prop where
  | nulls (x y : Val) (hx : x = .null ∨ x = .nullRef)
      (hy : y = .null ∨ y = .nullRef) : SpecEqual x y
  | bool (b : Bool) : SpecEqual (.bool b) (.bool b)
  | int (n : Int) : SpecEqual (.int n) (.int n)
  | str (s : GoStr) : SpecEqual (.str s) (.str s)
  | list (xs ys : List Val) (rx ry : ListRep) (hlen : xs.length = ys.length)
      (h : ∀ i (h₁ : i < xs.length) (h₂ : i < ys.length),
        SpecEqual (xs.get ⟨i, h₁⟩) (ys.get ⟨i, h₂⟩)) :
      SpecEqual (.list xs rx) (.list ys ry)

/-- The kind of a value, used to state that values of different kinds
    never compare equal.  Runtime representations of the same kind share
    a number. -/
def kindOf : Val → Nat
  | .null => 0
  | .nullRef => 0
  | .bool _ => 1
  | .int _ => 2
  | .str _ => 3
  | .list _ _ => 4
  | .varRef _ => 5
  | .ast _ _ => 6

/-! ## Concrete programs used by the theorems -/

/-- The blank machine state: no variables assigned, empty stdin, nothing
    written yet. -/
def initialState : KState := ⟨[], [], []⟩

/-- The deferred expression of the C3 example: the call node for
    multiplying the variable n by two. -/
def doubleBody : Val := .ast '*' [.varRef "n", .int 2]

/-- The C3 example program: assign BLOCK (* n 2) to f, set n to 5, store
    CALL f in r1, set n to 21, store CALL f in r2. -/
def doubleBlockProgram : Val :=
  .ast ';' [.ast '=' [.varRef "f", .ast 'B' [doubleBody]],
    .ast ';' [.ast '=' [.varRef "n", .int 5],
      .ast ';' [.ast '=' [.varRef "r1", .ast 'C' [.varRef "f"]],
        .ast ';' [.ast '=' [.varRef "n", .int 21],
          .ast '=' [.varRef "r2", .ast 'C' [.varRef "f"]]]]]]

/-- The two UTF-8 bytes of the rune U+00E9 (a single rune, two bytes),
    the concrete non-ASCII string of several counterexamples. -/
def twoByteRune : GoStr := [0xC3, 0xA9]

/-! ## Step equations for the evaluator

The one-step unfoldings of run for the constructs the theorems reason
about; each holds by definitional reduction of the dispatch match. -/

theorem runStepCall (fuel : Nat) (a : Val) (σ : KState) :
    run (fuel + 1) (.exe (.ast 'C' [a])) σ
      = Except.bind (run fuel (.exe a) σ) (fun p => run fuel (.exe p.1) p.2) := rfl

theorem runStepAnd (fuel : Nat) (a b : Val) (σ : KState) :
    run (fuel + 1) (.exe (.ast '&' [a, b])) σ
      = Except.bind (run fuel (.exe a) σ) (fun p =>
          Except.bind (expectBool (run fuel (.toBool p.1) p.2)) (fun q =>
            if q.1 then run fuel (.exe b) q.2 else .ok (p.1, q.2))) := rfl

theorem runStepOr (fuel : Nat) (a b : Val) (σ : KState) :
    run (fuel + 1) (.exe (.ast '|' [a, b])) σ
      = Except.bind (run fuel (.exe a) σ) (fun p =>
          Except.bind (expectBool (run fuel (.toBool p.1) p.2)) (fun q =>
            if q.1 then .ok (p.1, q.2) else run fuel (.exe b) q.2)) := rfl

theorem runStepEqualTo (fuel : Nat) (a b : Val) (σ : KState) :
    run (fuel + 1) (.exe (.ast '?' [a, b])) σ
      = Except.bind (run fuel (.exe a) σ) (fun p =>
          Except.bind (run fuel (.exe b) p.2) (fun q =>
            .ok (.bool (valEq p.1 q.1), q.2))) := rfl

/-! ## C3: BLOCK defers, CALL re-executes -/

/-- C3: BLOCK returns its argument unexecuted and with the state
    untouched; CALL executes its argument and then executes that result;
    and in the concrete example program, assigning BLOCK (* n 2) to f and
    executing CALL f after n is 5 and again after n is 21 stores 10 and
    then 42. -/
theorem blockReturnsUnexecutedAndCallReExecutes :
    (∀ (fuel : Nat) (x : Val) (σ : KState),
      run (fuel + 1) (.exe (.ast 'B' [x])) σ = .ok (x, σ)) ∧
    (∀ (fuel : Nat) (a b : Val) (σ σ₁ : KState),
      run fuel (.exe a) σ = .ok (b, σ₁) →
      run (fuel + 1) (.exe (.ast 'C' [a])) σ = run fuel (.exe b) σ₁) ∧
    (run 20 (.exe doubleBlockProgram) initialState).map
        (fun p => (p.2.env.lookup "r1", p.2.env.lookup "r2"))
      = .ok (some (.int 10), some (.int 42)) := by
  refine ⟨fun fuel x σ => rfl, fun fuel a b σ σ₁ h => ?_, rfl⟩
  rw [runStepCall, h]
  rfl

/-- Witness for C3 at concrete inputs: BLOCK of the doubling body is
    returned unexecuted, and CALL of a literal block of the literal 7
    executes down to 7. -/
theorem blockReturnsUnexecutedAndCallReExecutes_witness :
    run 1 (.exe (.ast 'B' [doubleBody])) initialState = .ok (doubleBody, initialState) ∧
    run 2 (.exe (.ast 'C' [.ast 'B' [.int 7]])) initialState
      = run 1 (.exe (.int 7)) initialState :=
  ⟨blockReturnsUnexecutedAndCallReExecutes.1 0 doubleBody initialState,
   blockReturnsUnexecutedAndCallReExecutes.2.1 1 (.ast 'B' [.int 7]) (.int 7)
     initialState initialState rfl⟩

/-! ## C4: the short-circuit operators -/

/-- C4: the conjunction operator executes its first argument and, when
    the Boolean coercion of the result is false, returns that value with
    the state it produced, never executing the second argument (so none
    of its side effects happen); when the coercion is true it executes
    and returns the second argument.  The disjunction operator does the
    same with the two truth values swapped. -/
theorem andOrShortCircuit :
    ∀ (fuel : Nat) (a b l : Val) (t : Bool) (σ σ₁ σ₂ : KState),
    run fuel (.exe a) σ = .ok (l, σ₁) →
    run fuel (.toBool l) σ₁ = .ok (.bool t, σ₂) →
    (t = false → run (fuel + 1) (.exe (.ast '&' [a, b])) σ = .ok (l, σ₂)) ∧
    (t = true → run (fuel + 1) (.exe (.ast '&' [a, b])) σ = run fuel (.exe b) σ₂) ∧
    (t = true → run (fuel + 1) (.exe (.ast '|' [a, b])) σ = .ok (l, σ₂)) ∧
    (t = false → run (fuel + 1) (.exe (.ast '|' [a, b])) σ = run fuel (.exe b) σ₂) := by
  intro fuel a b l t σ σ₁ σ₂ h1 h2
  refine ⟨fun ht => ?_, fun ht => ?_, fun ht => ?_, fun ht => ?_⟩ <;>
    subst ht <;>
    first
      | (rw [runStepAnd, h1]; simp [Except.bind, h2, expectBool])
      | (rw [runStepOr, h1]; simp [Except.bind, h2, expectBool])

/-- Witness for C4: a literal false conjoined with an OUTPUT call returns
    false and leaves the output bytes untouched, and a literal true
    disjoined with the same call does likewise. -/
theorem andOrShortCircuit_witness :
    run 2 (.exe (.ast '&' [.bool false, .ast 'O' [.str [104, 105]]])) initialState
      = .ok (.bool false, initialState) ∧
    run 2 (.exe (.ast '|' [.bool true, .ast 'O' [.str [104, 105]]])) initialState
      = .ok (.bool true, initialState) :=
  ⟨(andOrShortCircuit 1 (.bool false) (.ast 'O' [.str [104, 105]]) (.bool false)
      false initialState initialState initialState rfl rfl).1 rfl,
   (andOrShortCircuit 1 (.bool true) (.ast 'O' [.str [104, 105]]) (.bool true)
      true initialState initialState initialState rfl rfl).2.2.1 rfl⟩

/-! ## C1: GET on strings indexes bytes, not runes -/

/-- C1 counterexample: on the two-byte single-rune string, GET with start
    0 and length 1 is within the rune count, so the claim predicts the
    whole rune back, but the code returns the first byte alone. -/
theorem getStringRuneClaim_counterexample :
    goGet (.str twoByteRune) 0 1 = .ok (.str [0xC3]) ∧
    runeCountInString twoByteRune = 1 ∧
    specRuneSubstring twoByteRune 0 1 = twoByteRune ∧
    ([0xC3] : GoStr) ≠ twoByteRune := by
  refine ⟨rfl, rfl, rfl, by decide⟩

/-- C1 as amended: for nonnegative int64 start and length on a string of
    int64 byte count, GET returns the length bytes beginning at byte
    index start when start+length is at most the byte count; it returns
    an error when start+length exceeds the byte count without
    overflowing int64; and when start+length overflows int64 the wrapped
    stop index slips past the bounds check and the slice expression
    panics, crashing the interpreter rather than returning an error. -/
theorem getStringByBytes :
    ∀ (s : GoStr) (start length : Int),
    (s.length : Int) ≤ intMax64 → isInt64 start → isInt64 length →
    0 ≤ start → 0 ≤ length →
    (start + length ≤ (s.length : Int) →
      goGet (.str s) start length
        = .ok (.str ((s.drop start.toNat).take length.toNat))) ∧
    ((s.length : Int) < start + length → start + length ≤ intMax64 →
      goGet (.str s) start length = .err "string index out of bounds for GET") ∧
    (intMax64 < start + length →
      goGet (.str s) start length = .panicked "slice bounds out of range") := by
  intro s start length hsl h64s h64l hs hl
  unfold isInt64 intMin64 intMax64 at *
  refine ⟨fun hb => ?_, fun hb hb2 => ?_, fun hb => ?_⟩
  · have hw : wrap64 (start + length) = start + length := by
      unfold wrap64
      omega
    have hcast : (start + length - start).toNat = length.toNat := by omega
    simp only [goGet, goGetRange, hw, if_neg (not_lt_of_ge hs), if_neg (not_lt_of_ge hl),
      hcast]
    rw [if_neg (by omega), if_pos ⟨hs, by omega⟩]
  · have hw : wrap64 (start + length) = start + length := by
      unfold wrap64
      omega
    simp only [goGet, goGetRange, hw, if_neg (not_lt_of_ge hs), if_neg (not_lt_of_ge hl)]
    rw [if_pos (by omega)]
  · have hw : wrap64 (start + length) = start + length - 2 ^ 64 := by
      unfold wrap64
      omega
    simp only [goGet, goGetRange, hw, if_neg (not_lt_of_ge hs), if_neg (not_lt_of_ge hl)]
    rw [if_neg (by omega), if_neg (by omega)]

/-- Witness for C1: GET "hello world" 6 5 returns the five bytes starting
    at byte index 6; GET "abc" 2 2 errors; and at start and length both
    2 to the 62nd the sum wraps and the code panics. -/
theorem getStringByBytes_witness :
    goGet (.str (goStrOf "hello world")) 6 5
      = .ok (.str (((goStrOf "hello world").drop (6 : Int).toNat).take (5 : Int).toNat)) ∧
    goGet (.str (goStrOf "abc")) 2 2 = .err "string index out of bounds for GET" ∧
    goGet (.str (goStrOf "abc")) (2 ^ 62) (2 ^ 62) = .panicked "slice bounds out of range" :=
  ⟨(getStringByBytes (goStrOf "hello world") 6 5 (by decide) (by decide) (by decide)
      (by decide) (by decide)).1 (by decide),
   (getStringByBytes (goStrOf "abc") 2 2 (by decide) (by decide) (by decide)
      (by decide) (by decide)).2.1 (by decide) (by decide),
   (getStringByBytes (goStrOf "abc") (2 ^ 62) (2 ^ 62) (by decide) (by decide) (by decide)
      (by decide) (by decide)).2.2 (by decide)⟩

/-! ## C2: LENGTH of a string -/

/-- C2: the length handler applied to the two-byte single-rune string
    returns 2, the UTF-8 byte count, although the rune count is 1; the
    code takes the Go len of the string instead of the length of its
    list conversion that its own documentation and the specification
    describe. -/
theorem lengthCountsBytesNotRunes :
    run 2 (.exe (.ast 'L' [.str twoByteRune])) initialState
      = .ok (.int 2, initialState) ∧
    runeCountInString twoByteRune = 1 ∧ (2 : Int) ≠ (1 : Int) := by
  refine ⟨rfl, rfl, by decide⟩

/-! ## C6: PROMPT -/

/-- C6 counterexample: with pending input of one line whose text ends in
    two carriage returns before the newline, the claim predicts exactly
    one carriage return stripped, leaving one, but the code strips them
    all. -/
theorem promptOneCRClaim_counterexample :
    goPrompt (.healthy [97, 13, 13, 10]) = .ok (.str [97], []) ∧
    specPromptLineOneCR [97, 13, 13, 10] = [97, 13] ∧
    ([97] : GoStr) ≠ [97, 13] := by
  refine ⟨rfl, rfl, by decide⟩

/-- Dropping one trailing carriage return first does not change the
    result of dropping them all. -/
theorem trimRightCR_dropCR (l : GoStr) : trimRightCR (dropCR l) = trimRightCR l := by
  unfold dropCR
  by_cases h : l.getLast? = some 13
  · obtain ⟨t, rfl⟩ := List.getLast?_eq_some_iff.1 h
    simp [trimRightCR, List.dropWhile]
  · simp [h]

/-- C6 as amended: a broken stdin surfaces its error; end of input yields
    Null; and otherwise PROMPT returns the text before the first newline
    with all trailing carriage returns stripped (not merely the one
    before the newline), consuming the line and its newline. -/
theorem promptSemantics :
    ∀ (stdin : GoStr) (msg : String),
    goPrompt (.broken msg) = .error msg ∧
    goPrompt (.healthy []) = .ok (.null, []) ∧
    (stdin ≠ [] →
      goPrompt (.healthy stdin)
        = .ok (.str (trimRightCR (lineBreakFree stdin)),
            stdin.drop ((lineBreakFree stdin).length + 1))) := by
  intro stdin msg
  refine ⟨rfl, rfl, fun hne => ?_⟩
  by_cases hlen : (lineBreakFree stdin).length = stdin.length
  · have hdrop : stdin.drop ((lineBreakFree stdin).length + 1) = [] :=
      List.drop_eq_nil_of_le (by omega)
    simp [goPrompt, scanLine, hne, hlen, hdrop, trimRightCR_dropCR]
  · simp [goPrompt, scanLine, hne, hlen, trimRightCR_dropCR]

/-- Witness for C6: one pending line with a single carriage return before
    the newline and further input behind it. -/
theorem promptSemantics_witness :
    goPrompt (.healthy [102, 13, 10, 98])
      = .ok (.str (trimRightCR (lineBreakFree [102, 13, 10, 98])),
          [102, 13, 10, 98].drop ((lineBreakFree [102, 13, 10, 98]).length + 1)) ∧
    trimRightCR (lineBreakFree [102, 13, 10, 98]) = [102] :=
  ⟨(promptSemantics [102, 13, 10, 98] "").2.2 (by decide), by decide⟩

/-! ## C9: the list handlers alias backing arrays -/

/-- C9: building the three-element list by replication, slicing its first
    two elements with GET and adding a one-element list to the slice
    writes through the shared backing array: the original list, produced
    earlier and not passed to the add, changes from 1,1,1 to 1,1,9.  The
    claim that no operation observably mutates a previously produced
    list is therefore violated by the code (append reuses spare
    capacity), while the specification treats list values as
    immutable. -/
theorem addMutatesListThroughSharedArray :
    (let (h₁, one) := sliceAlloc [] [1]
     let (h₂, big) := goMultiplyList h₁ one 3
     let (h₃, nine) := sliceAlloc h₂ [9]
     let sub := goSliceExpr big 0 2
     let (h₄, _) := goAddList h₃ sub (view h₃ nine)
     view h₃ big = [1, 1, 1] ∧ view h₄ big = [1, 1, 9]) ∧
    ([1, 1, 9] : List Int) ≠ [1, 1, 1] := by
  exact ⟨⟨rfl, rfl⟩, by decide⟩

/-! ## C7: Integer coercion of strings -/

/-- C7: for every string whose specified parse value fits in int64, the
    Integer coercion skips leading whitespace, reads an optional sign and
    the maximal decimal digit run, returns that number (zero when the run
    is empty) and ignores the rest. -/
theorem stringToIntegerParsesSignedDigits :
    ∀ s : GoStr, isInt64 (specStringToInt (utf8DecodeStr s)) →
    stringToInteger s = specStringToInt (utf8DecodeStr s) := by
  intro s h
  simp only [stringToInteger, sscanfPercentD, specStringToInt] at *
  set t := (utf8DecodeStr s).dropWhile (fun r => goIsSpace r) with ht
  by_cases hrun :
      (if t.head? = some 45 ∨ t.head? = some 43 then t.tail else t).takeWhile isDigitRune = []
  · rw [if_pos hrun]
    unfold digitRunValue
    rw [hrun]
    simp
  · rw [if_neg hrun]
    unfold isInt64 at h
    rw [if_pos h]

/-- Witness for C7 at the concrete strings of the claim. -/
theorem stringToIntegerParsesSignedDigits_witness :
    stringToInteger (goStrOf "  -12abc3") = specStringToInt (utf8DecodeStr (goStrOf "  -12abc3")) ∧
    stringToInteger (goStrOf "  -12abc3") = -12 ∧
    stringToInteger (goStrOf "xyz") = 0 :=
  ⟨stringToIntegerParsesSignedDigits (goStrOf "  -12abc3") (by decide), by decide, by decide⟩

/-! ## C10: division and remainder truncate toward zero -/

/-- Go truncated division agrees with the sign-and-magnitude description
    of truncation toward zero. -/
theorem tdiv_eq_specTruncQuot (a b : Int) : a.tdiv b = specTruncQuot a b := by
  unfold specTruncQuot
  rcases a with (_ | m) | m <;> rcases b with (_ | n) | n <;>
    simp [Int.tdiv, Int.sign, Int.natAbs] <;> push_cast <;> ring

/-- Go truncated remainder agrees with the dividend-sign description. -/
theorem tmod_eq_specTruncRem (a b : Int) : a.tmod b = specTruncRem a b := by
  unfold specTruncRem
  rcases a with (_ | m) | m <;> rcases b with (_ | n) | n <;>
    simp [Int.tmod, Int.sign, Int.natAbs] <;> push_cast <;> ring

/-- In-range integers are fixed by the int64 wrap. -/
theorem wrap64_eq_self {n : Int} (h : isInt64 n) : wrap64 n = n := by
  unfold isInt64 intMin64 intMax64 at h
  unfold wrap64
  norm_num at *
  omega

/-- The truncated remainder is strictly smaller than the divisor in
    absolute value. -/
theorem natAbs_tmod_lt (a : Int) {b : Int} (hb : b ≠ 0) :
    (a.tmod b).natAbs < b.natAbs := by
  have hbn : 0 < b.natAbs := Int.natAbs_pos.mpr hb
  rw [tmod_eq_specTruncRem]
  unfold specTruncRem
  rw [Int.natAbs_mul, Int.natAbs_ofNat]
  have h1 : (Int.sign a).natAbs ≤ 1 := by
    rcases a with (_ | m) | m <;> simp [Int.sign]
  have h3 : a.natAbs % b.natAbs < b.natAbs := Nat.mod_lt _ hbn
  have h4 : (Int.sign a).natAbs * (a.natAbs % b.natAbs) ≤ 1 * (a.natAbs % b.natAbs) :=
    Nat.mul_le_mul_right _ h1
  omega

/-- The remainder of two int64 values is an int64 value. -/
theorem isInt64_tmod {a b : Int} (hb : isInt64 b) (hb0 : b ≠ 0) :
    isInt64 (a.tmod b) := by
  have h := natAbs_tmod_lt a hb0
  unfold isInt64 intMin64 intMax64 at *
  norm_num at *
  omega

/-- The truncated quotient of two int64 values is an int64 value except
    for the most negative value divided by minus one. -/
theorem isInt64_tdiv {a b : Int} (ha : isInt64 a) (hb : isInt64 b)
    (hx : ¬(a = intMin64 ∧ b = -1)) : isInt64 (a.tdiv b) := by
  unfold isInt64 intMin64 intMax64 at *
  norm_num at ha hb hx ⊢
  have hq : (a.tdiv b).natAbs = a.natAbs / b.natAbs := Int.natAbs_tdiv a b
  have h1 : a.natAbs / b.natAbs ≤ a.natAbs := Nat.div_le_self _ _
  by_cases hq2 : a.tdiv b = 9223372036854775808
  · exfalso
    have hqa : a.natAbs / b.natAbs = 9223372036854775808 := by
      rw [← hq, hq2]; rfl
    have hbn : b.natAbs = 1 := by
      by_contra hne1
      rcases Nat.lt_or_ge b.natAbs 2 with h2 | h2
      · have hb0 : b = 0 := by omega
        subst hb0
        simp at hqa
      · have hhalf : a.natAbs / b.natAbs ≤ a.natAbs / 2 :=
          Nat.div_le_div_left h2 (by omega)
        omega
    rw [hbn, Nat.div_one] at hqa
    have hb1 : b = 1 ∨ b = -1 := by omega
    rcases hb1 with rfl | rfl
    · rw [Int.tdiv_one] at hq2
      omega
    · exact hx (by omega) rfl
  · omega

/-- C10 as amended: for int64 operands with a nonzero divisor, the
    remainder handler returns the remainder whose sign follows the
    dividend, and the division handler returns the quotient truncated
    toward zero for every pair except the most negative value divided by
    minus one, where the Go quotient wraps around. -/
theorem divideRemainderTruncateTowardZero :
    ∀ a b : Int, isInt64 a → isInt64 b → b ≠ 0 →
    goRemainderInt a b = .ok (specTruncRem a b) ∧
    (¬(a = intMin64 ∧ b = -1) → goDivideInt a b = .ok (specTruncQuot a b)) := by
  intro a b ha hb hb0
  constructor
  · unfold goRemainderInt
    rw [if_neg hb0, wrap64_eq_self (isInt64_tmod hb hb0), tmod_eq_specTruncRem]
  · intro hx
    unfold goDivideInt
    rw [if_neg hb0, wrap64_eq_self (isInt64_tdiv ha hb hx), tdiv_eq_specTruncQuot]

/-- Witness for C10: division of minus seven by two gives minus three and
    remainder of minus five by two gives minus one, as the claim states. -/
theorem divideRemainderTruncateTowardZero_witness :
    goDivideInt (-7) 2 = .ok (specTruncQuot (-7) 2) ∧
    goRemainderInt (-5) 2 = .ok (specTruncRem (-5) 2) ∧
    specTruncQuot (-7) 2 = -3 ∧ specTruncRem (-5) 2 = -1 :=
  ⟨(divideRemainderTruncateTowardZero (-7) 2 (by decide) (by decide) (by decide)).2
      (by decide),
   (divideRemainderTruncateTowardZero (-5) 2 (by decide) (by decide) (by decide)).1,
   by decide, by decide⟩

/-- C10 counterexample: at the most negative int64 divided by minus one
    the code wraps around instead of returning the truncated quotient. -/
theorem divideMinIntWraps_counterexample :
    goDivideInt intMin64 (-1) = .ok intMin64 ∧
    specTruncQuot intMin64 (-1) = 2 ^ 63 ∧
    intMin64 ≠ 2 ^ 63 := by
  refine ⟨rfl, by decide, by decide⟩

/-! ## C8: the List coercion of integers -/

/-- The loop leaves an already-exhausted integer alone. -/
theorem intToListLoop_zero (fuel : Nat) (acc : List Int) :
    intToListLoop fuel 0 acc = acc := by
  cases fuel <;> simp [intToListLoop]

/-- Go remainder by ten in sign-and-magnitude form. -/
theorem tmod_ten (i : Int) : i.tmod 10 = i.sign * (i.natAbs % 10 : Nat) := by
  rcases i with (_ | m) | m <;> simp [Int.tmod, Int.sign, Int.natAbs] <;> push_cast <;> ring

/-- The magnitude of the Go quotient by ten. -/
theorem natAbs_tdiv_ten (i : Int) : (i.tdiv 10).natAbs = i.natAbs / 10 :=
  Int.natAbs_tdiv i 10

/-- Dividing by ten preserves the sign while the quotient is nonzero. -/
theorem sign_tdiv_ten (i : Int) (h : i.tdiv 10 ≠ 0) : (i.tdiv 10).sign = i.sign := by
  rcases lt_trichotomy i 0 with hi | hi | hi
  · have h1 : i.tdiv 10 ≤ 0 := by
      have h2 : 0 ≤ (-i).tdiv 10 := Int.tdiv_nonneg (by omega) (by norm_num)
      rw [Int.neg_tdiv] at h2
      omega
    rw [Int.sign_eq_neg_one_iff_neg.mpr (by omega), Int.sign_eq_neg_one_iff_neg.mpr hi]
  · subst hi
    simp at h
  · have h1 : 0 ≤ i.tdiv 10 := Int.tdiv_nonneg (by omega) (by norm_num)
    rw [Int.sign_eq_one_iff_pos.mpr (by omega), Int.sign_eq_one_iff_pos.mpr hi]

/-- The digit-peeling loop produces the reversed base-10 digits with the
    sign of the integer distributed onto every digit. -/
theorem intToListLoop_spec :
    ∀ (fuel : Nat) (i : Int) (acc : List Int), i.natAbs ≤ fuel → i ≠ 0 →
    intToListLoop fuel i acc
      = ((Nat.digits 10 i.natAbs).reverse.map fun (d : Nat) => (d : Int) * i.sign) ++ acc := by
  intro fuel
  induction fuel with
  | zero =>
    intro i acc h h0
    have := Int.natAbs_pos.mpr h0
    omega
  | succ fuel ih =>
    intro i acc h h0
    have hpos : 0 < i.natAbs := Int.natAbs_pos.mpr h0
    rw [intToListLoop, if_neg h0]
    by_cases hz : i.tdiv 10 = 0
    · have h10 : i.natAbs < 10 := by
        have hdiv := natAbs_tdiv_ten i
        rw [hz] at hdiv
        simp at hdiv
        omega
      rw [hz, intToListLoop_zero]
      rw [Nat.digits_of_lt 10 i.natAbs (by omega) h10]
      simp only [List.reverse_singleton, List.map_cons, List.map_nil,
        List.cons_append, List.nil_append]
      congr 1
      rw [tmod_ten i, Nat.mod_eq_of_lt h10, mul_comm]
    · have hfuel : (i.tdiv 10).natAbs ≤ fuel := by
        have hdiv := natAbs_tdiv_ten i
        omega
      rw [ih (i.tdiv 10) _ hfuel hz, sign_tdiv_ten i hz, natAbs_tdiv_ten i]
      rw [Nat.digits_def' (by norm_num : (1 : ℕ) < 10) hpos,
        List.reverse_cons, List.map_append, List.append_assoc]
      simp only [List.map_cons, List.map_nil, List.cons_append, List.nil_append]
      congr 2
      rw [tmod_ten i, mul_comm]

/-- C8: the List coercion of an integer is its base-10 digit list, zero
    coercing to the one-element zero list, with the sign propagating into
    every digit; in particular minus one hundred twenty-three coerces to
    the digits minus one, minus two, minus three. -/
theorem integerToListDigits :
    (∀ n : Int, intToList n = .ok (specDigitList n)) ∧
    intToList 0 = .ok [0] ∧
    intToList (-123) = .ok [-1, -2, -3] := by
  have main : ∀ n : Int, intToList n = .ok (specDigitList n) := by
    intro n
    unfold intToList specDigitList
    by_cases h0 : n = 0
    · simp [h0]
    · rw [if_neg h0, if_neg h0, if_neg (by simp [shouldSupportKnightVersion_2_0_1])]
      rw [intToListLoop_spec (n.natAbs + 1) n [] (by omega) h0]
      simp
  exact ⟨main, rfl, rfl⟩

/-! ## C5: equality is DeepEqual on runtime values, finer than kinds -/

/-- Elementwise DeepEqual corresponds to the pairwise relation. -/
theorem valEqList_iff_forall2 (xs ys : List Val) :
    valEqList xs ys = true ↔ List.Forall₂ (fun a b => valEq a b = true) xs ys := by
  induction xs generalizing ys with
  | nil => cases ys <;> simp [valEqList]
  | cons x xs ih => cases ys <;> simp [valEqList, ih]

/-- Structurally equal values have the same kind. -/
theorem specEqual_kind {x y : Val} (h : SpecEqual x y) : kindOf x = kindOf y := by
  cases h with
  | nulls a b ha hb =>
    rcases ha with h1 | h1 <;> rcases hb with h2 | h2 <;> rw [h1, h2] <;> rfl
  | bool b => rfl
  | int n => rfl
  | str s => rfl
  | list xs ys rx ry hlen h => rfl

/-- DeepEqual answering true on literal values entails the structural
    equality the specification describes. -/
theorem valEq_sound : ∀ {x : Val}, Lit x → ∀ {y : Val}, Lit y →
    valEq x y = true → SpecEqual x y := by
  intro x hx
  induction hx with
  | null =>
    intro y hy h
    cases hy <;> simp [valEq] at h
    exact SpecEqual.nulls _ _ (Or.inl rfl) (Or.inl rfl)
  | nullRef =>
    intro y hy h
    cases hy <;> simp [valEq] at h
    exact SpecEqual.nulls _ _ (Or.inr rfl) (Or.inr rfl)
  | bool b =>
    intro y hy h
    cases hy <;> simp [valEq] at h
    rw [h]; exact SpecEqual.bool _
  | int n =>
    intro y hy h
    cases hy <;> simp [valEq] at h
    rw [h]; exact SpecEqual.int _
  | str s =>
    intro y hy h
    cases hy <;> simp [valEq] at h
    rw [h]; exact SpecEqual.str _
  | list xs rep hxs ih =>
    intro y hy h
    cases hy with
    | null => simp [valEq] at h
    | nullRef => simp [valEq] at h
    | bool b => simp [valEq] at h
    | int n => simp [valEq] at h
    | str s => simp [valEq] at h
    | list ys ry hys =>
      simp only [valEq, Bool.and_eq_true] at h
      have h2 := (valEqList_iff_forall2 xs ys).mp h.2
      have h3 := List.forall₂_iff_get.mp h2
      exact SpecEqual.list xs ys rep ry h3.1 fun i h₁ h₂ =>
        ih (xs.get ⟨i, h₁⟩) (xs.get_mem i h₁) (hys (ys.get ⟨i, h₂⟩) (ys.get_mem i h₂))
          (h3.2 i h₁ h₂)

/-- DeepEqual is reflexive on literal values: both sides of one value
    carry the same runtime representation. -/
theorem valEq_refl : ∀ {x : Val}, Lit x → valEq x x = true := by
  intro x hx
  induction hx with
  | null => rfl
  | nullRef => rfl
  | bool b => simp [valEq]
  | int n => simp [valEq]
  | str s => simp [valEq]
  | list xs rep hxs ih =>
    simp only [valEq, Bool.and_eq_true]
    refine ⟨by simp, (valEqList_iff_forall2 xs xs).mpr
      (List.forall₂_iff_get.mpr ⟨rfl, fun i h₁ h₂ => ?_⟩)⟩
    exact ih (xs.get ⟨i, h₁⟩) (xs.get_mem i h₁)

/-- C5 as amended: the equality operator executes both arguments and
    answers their reflect.DeepEqual comparison of runtime values.  On
    literal values DeepEqual is sound for the structural equality of the
    specification — a true answer implies same kind and componentwise
    equality, values of different kinds always compare false, and a value
    compares true to itself — but it is strictly finer than structural
    equality, because it also distinguishes the runtime representations
    within one kind (plain against pointer-boxed null or list, nil
    against non-nil empty slice). -/
theorem equalToDeepEqual :
    ∀ (fuel : Nat) (a b x y : Val) (σ σ₁ σ₂ : KState),
    run fuel (.exe a) σ = .ok (x, σ₁) →
    run fuel (.exe b) σ₁ = .ok (y, σ₂) →
    run (fuel + 1) (.exe (.ast '?' [a, b])) σ = .ok (.bool (valEq x y), σ₂) ∧
    (Lit x → Lit y →
      (valEq x y = true → SpecEqual x y) ∧
      (kindOf x ≠ kindOf y → valEq x y = false) ∧
      (x = y → valEq x y = true)) := by
  intro fuel a b x y σ σ₁ σ₂ h1 h2
  refine ⟨?_, fun hx hy => ⟨valEq_sound hx hy, fun hk => ?_, fun hxy => ?_⟩⟩
  · rw [runStepEqualTo, h1]
    simp only [Except.bind]
    rw [h2]
  · cases hvq : valEq x y
    · rfl
    · exact absurd (specEqual_kind (valEq_sound hx hy hvq)) hk
  · subst hxy
    exact valEq_refl hx

/-- Witness for C5: comparing the integer one with the one-character
    string of the digit one gives false (kinds differ, no coercion), via
    the theorem applied at those literals. -/
theorem equalToDeepEqual_witness :
    run 2 (.exe (.ast '?' [.int 1, .str [49]])) initialState
      = .ok (.bool (valEq (.int 1) (.str [49])), initialState) ∧
    valEq (.int 1) (.str [49]) = false :=
  ⟨(equalToDeepEqual 1 (.int 1) (.str [49]) (.int 1) (.str [49])
      initialState initialState initialState rfl rfl).1,
   ((equalToDeepEqual 1 (.int 1) (.str [49]) (.int 1) (.str [49])
      initialState initialState initialState rfl rfl).2 (Lit.int 1)
      (Lit.str [49])).2.1 (by decide)⟩

/-- C5 counterexample: WHILE FALSE FALSE returns the plain Null value
    while NULL returns the pointer-boxed null, so the two executed values
    are nulls of the same kind that are structurally equal in the
    specification's sense, yet reflect.DeepEqual distinguishes their
    dynamic types and the program ? (WHILE FALSE FALSE) NULL answers
    false — against the claim that equality answers true exactly on
    structurally equal values of one kind. -/
theorem equalToStructuralClaim_counterexample :
    run 4 (.exe (.ast '?' [.ast 'W' [.ast 'F' [], .ast 'F' []], .ast 'N' []]))
        initialState
      = .ok (.bool false, initialState) ∧
    run 3 (.exe (.ast 'W' [.ast 'F' [], .ast 'F' []])) initialState
      = .ok (.null, initialState) ∧
    run 3 (.exe (.ast 'N' [])) initialState = .ok (.nullRef, initialState) ∧
    SpecEqual Val.null Val.nullRef ∧
    kindOf Val.null = kindOf Val.nullRef ∧
    valEq Val.null Val.nullRef = false :=
  ⟨rfl, rfl, rfl, SpecEqual.nulls _ _ (Or.inl rfl) (Or.inr rfl), rfl, rfl⟩

end KnightGo
